import Mathlib

/-!
Shallow embedding of the snake game backend (Go sources under `backend/`).
The embedding follows the source files:
  * `backend/constants/constants.go` : grid sizes and directions,
  * `backend/models/models.go`       : `Position`, `Snake`, `GameState`, `Player`, `Game`,
  * `backend/game/gameplay.go`       : movement, wrap-around, food, collisions, `endGame`,
  * `backend/game/matchmaking.go`    : `SendGameRequest`, `AcceptGameRequest`,
  * `backend/game/players.go`        : `RemovePlayer`,
  * `backend/game/multiplayer.go`    : `MultiplayerGameManager.HandlePlayerMove`,
  * `backend/lobby/service.go`       : the lobby `Service`,
  * `backend/handlers/websocket_handler.go` : token connections.
Go maps are modelled as association lists (iteration order of a Go map is
modelled by list order), channels as a `hasConn` flag, and message sends as a
list of emitted events.
-/

namespace SnakeGame

/-- `constants.GRID_WIDTH` -/
def GRID_WIDTH : Int := 40

/-- `constants.GRID_HEIGHT` -/
def GRID_HEIGHT : Int := 30

/-- `models.Position` (Go `int` coordinates). -/
structure Position where
  x : Int
  y : Int
  deriving DecidableEq, Repr

instance : Inhabited Position := ⟨⟨0, 0⟩⟩

/-- `constants.Direction`. -/
inductive Direction where
  | up
  | down
  | left
  | right
  deriving DecidableEq, Repr

/-- The `opposites` map built inside `HandlePlayerMove` (gameplay.go). -/
def opposites : Direction → Direction
  | .up => .down
  | .down => .up
  | .left => .right
  | .right => .left

/-- The `switch directionStr` parsing inside `HandlePlayerMove` (gameplay.go):
unknown strings make the handler return without effect, modelled as `none`. -/
def parseDirection : String → Option Direction
  | "up" => some .up
  | "down" => some .down
  | "left" => some .left
  | "right" => some .right
  | _ => none

/-- `models.Snake` (the `Color` and `Username` fields play no role in the
verified logic and are omitted). -/
structure Snake where
  id : String
  body : List Position
  direction : Direction
  nextDir : Direction
  score : Int
  deriving DecidableEq, Repr

/-- `models.Food`. -/
structure Food where
  position : Position
  deriving DecidableEq, Repr

/-- `models.PlayerStatus`. -/
structure PlayerStatus where
  id : String
  username : String
  ready : Bool
  deriving DecidableEq, Repr

/-- `models.GameState`. -/
structure GameState where
  id : String
  snakes : List Snake
  food : Food
  status : String
  countdown : Int
  winner : String
  players : List PlayerStatus
  deriving DecidableEq, Repr

/-- `models.Player`; the Go `Send chan []byte` (nullable) is modelled by the
flag `hasConn` (`Send != nil`). -/
structure Player where
  id : String
  username : String
  hasConn : Bool
  ready : Bool
  deriving DecidableEq, Repr

/-- `models.Game`; `Spectators map[string]*Player` is modelled as a list. -/
structure Game where
  id : String
  player1 : Player
  player2 : Player
  state : GameState
  isActive : Bool
  spectators : List Player
  deriving DecidableEq, Repr

/-! ### Movement (gameLoop, gameplay.go lines 164-226) -/

/-- One step of the head in the current direction (the `switch` in `gameLoop`). -/
def stepPos (head : Position) : Direction → Position
  | .up => { x := head.x, y := head.y - 1 }
  | .down => { x := head.x, y := head.y + 1 }
  | .left => { x := head.x - 1, y := head.y }
  | .right => { x := head.x + 1, y := head.y }

/-- The wrap-around conditionals of `gameLoop`:
`if newHead.X < 0 { newHead.X = GRID_WIDTH - 1 } else if newHead.X >= GRID_WIDTH { newHead.X = 0 }`
and the same for `Y` with `GRID_HEIGHT`. -/
def wrapPos (p : Position) : Position :=
  let x := if p.x < 0 then GRID_WIDTH - 1 else if p.x ≥ GRID_WIDTH then 0 else p.x
  let y := if p.y < 0 then GRID_HEIGHT - 1 else if p.y ≥ GRID_HEIGHT then 0 else p.y
  { x := x, y := y }

/-- New head of a snake: step then wrap (gameLoop). -/
def nextHead (head : Position) (d : Direction) : Position :=
  wrapPos (stepPos head d)

/-- The direction-promotion loop of `gameLoop`:
`game.State.Snakes[i].Direction = game.State.Snakes[i].NextDir`. -/
def promoteSnake (s : Snake) : Snake :=
  { s with direction := s.nextDir }

/-! ### Food generation (generateFood, gameplay.go lines 308-332) -/

/-- The validity check of `generateFood`: the candidate cell lies on no body
cell of any snake. -/
def isValidFood (p : Position) (snakes : List Snake) : Bool :=
  snakes.all fun s => s.body.all fun c => !(c.x == p.x && c.y == p.y)

/-- `generateFood` draws random cells and rejects colliding ones until a valid
one appears.  The random stream is modelled by the list `candidates`; an
exhausted list (`none`) models the (probability-zero on a non-full grid)
divergence of the retry loop. -/
def generateFood (candidates : List Position) (snakes : List Snake) : Option Position :=
  candidates.find? (fun p => isValidFood p snakes)

/-! ### The movement phase of one tick (gameLoop, gameplay.go lines 174-212).
The loop moves the snakes in index order, mutating the shared slice in place;
`done` holds the already-moved prefix and `rest` the untouched suffix, so a
food regeneration triggered by snake `i` sees snakes `0..i` moved and the
others not, exactly as the Go slice does. -/

def moveSnakes (candidates : List Position) :
    List Snake → Food → List Snake → Option (List Snake × Food)
  | done, food, [] => some (done, food)
  | done, food, s :: rest =>
    let head := s.body.headI
    let nh := nextHead head s.direction
    let grown : Snake := { s with body := nh :: s.body }
    if nh = food.position then
      let fed : Snake := { grown with score := grown.score + 1 }
      match generateFood candidates (done ++ fed :: rest) with
      | none => none
      | some f => moveSnakes candidates (done ++ [fed]) ⟨f⟩ rest
    else
      moveSnakes candidates (done ++ [{ grown with body := grown.body.dropLast }]) food rest

/-- The whole movement phase of a tick: promote every pending direction, then
move the snakes front to back. -/
def tickMove (candidates : List Position) (snakes : List Snake) (food : Food) :
    Option (List Snake × Food) :=
  moveSnakes candidates [] food (snakes.map promoteSnake)

/-! ### Collision resolution (checkCollisions, gameplay.go lines 228-268) -/

/-- The inner body scan of `checkCollisions`: does `head` hit one of the cells
of `body`?  (`body` is always passed without its head cell.) -/
def bodyHits (head : Position) (body : List Position) : Bool :=
  body.any fun c => c.x == head.x && c.y == head.y

/-- Self-collision of one snake: its head equals one of its non-head cells
(the `j := 1` loop of `checkCollisions`). -/
def selfCollides (s : Snake) : Bool :=
  bodyHits s.body.headI s.body.tail

/-- `checkCollisions` for the two-snake (multiplayer) game: the returned
string is the winner's id, `"tie"`, or `""` for no terminal collision.
`s1`/`s2` are `game.State.Snakes[0]`/`[1]`. -/
def checkCollisions (s1 s2 : Snake) : String :=
  if selfCollides s1 then s2.id
  else if selfCollides s2 then s1.id
  else
    let h1 := s1.body.headI
    let h2 := s2.body.headI
    if h1 = h2 then
      if s1.score > s2.score then s1.id
      else if s2.score > s1.score then s2.id
      else "tie"
    else if bodyHits h1 s2.body.tail then s2.id
    else if bodyHits h2 s1.body.tail then s1.id
    else ""

/-! ### Lobby service (backend/lobby/service.go).
`players map[string]*Player` is an association list, `order []string` the
insertion-order list. -/

structure LobbyService where
  players : List (String × Player)
  order : List String
  deriving DecidableEq, Repr

/-- `lobby.NewService`. -/
def LobbyService.empty : LobbyService := ⟨[], []⟩

/-- `Service.Get`. -/
def LobbyService.get (s : LobbyService) (playerID : String) : Option Player :=
  s.players.lookup playerID

/-- `Service.Add`: no-op (returning `false`) when the id is already a member,
otherwise insert into the map and append the id to the order list. -/
def LobbyService.add (s : LobbyService) (p : Player) : LobbyService × Bool :=
  if (s.players.lookup p.id).isSome then (s, false)
  else ({ players := (p.id, p) :: s.players, order := s.order ++ [p.id] }, true)

/-- `Service.Remove`: delete the map key and the first occurrence of the id in
the order list; an absent id raises no error. -/
def LobbyService.remove (s : LobbyService) (playerID : String) : LobbyService :=
  { players := s.players.eraseP (fun kv => kv.1 == playerID),
    order := s.order.erase playerID }

/-- `Service.Snapshot`: the members in first-come-first-served order. -/
def LobbyService.snapshot (s : LobbyService) : List Player :=
  s.order.filterMap (fun id => s.players.lookup id)

/-- Membership of the lobby (a `Get` hit). -/
def LobbyService.member (s : LobbyService) (playerID : String) : Bool :=
  (s.players.lookup playerID).isSome

/-- Well-formedness maintained by `Add`/`Remove` from the empty service: the
map keys are exactly the order entries and neither side has duplicates. -/
def LobbyService.WF (s : LobbyService) : Prop :=
  (s.players.map Prod.fst).Perm s.order ∧ s.order.Nodup

/-! ### Emitted messages.
`sendMessage`/`broadcastToPlayers` (gameplay.go, lobby.go) are modelled as a
list of events; only the payload fields the verified logic inspects are kept. -/

inductive Event where
  /-- `MSG_ERROR` to a player; `code` is the optional `"code"` payload field. -/
  | errorEv (recipient : String) (code : Option String) (message : String)
  /-- `sendErrorAndClose` (websocket_handler.go): an error frame followed by
  closing the socket, before any player exists. -/
  | errorClosed (code : String) (message : String)
  /-- `MSG_MATCH_FOUND` to the target of a game request. -/
  | matchFound (recipient gameID senderID : String)
  /-- `MSG_GAME_REQUEST_SENT` to the requester. -/
  | requestSent (recipient gameID toID status : String)
  /-- `MSG_GAME_ACCEPT` carrying the game snapshot. -/
  | gameAccept (recipient gameID : String) (snap : GameState)
  /-- `MSG_GAME_OVER` carrying the final snapshot. -/
  | gameOver (recipient : String) (snap : GameState)
  /-- `MSG_GAME_UPDATE` carrying a snapshot. -/
  | gameUpdate (recipient : String) (snap : GameState)
  /-- `MSG_PLAYER_DISCONNECTED` to the surviving principal. -/
  | playerDisconnected (recipient gameID username : String)
  /-- `MSG_GAME_REQUEST_CANCEL` (withdrawal notice). -/
  | requestCancel (recipient username : String)
  /-- `MSG_LOBBY_STATUS` (payload elided). -/
  | lobbyStatus (recipient : String)
  /-- `MSG_GAMES_LIST` (payload elided). -/
  | gamesList (recipient : String)
  deriving DecidableEq, Repr

/-- A pending match-request edge: `PendingRequests[target][sender] = game`
(matchmaking.go); the nested Go maps are flattened into an edge list carrying
the fields the code reads back (`game.ID`, via the stored pointer). -/
structure PendingEdge where
  target : String
  sender : String
  gameID : String
  deriving DecidableEq, Repr

/-- `game.Manager` (manager.go): lobby service, games table, pending request
edges and the match queue. -/
structure ManagerState where
  lobby : LobbyService
  games : List (String × Game)
  pending : List PendingEdge
  matchQueue : List Player
  deriving DecidableEq, Repr

/-- `broadcastToPlayers` (gameplay.go lines 334-347): send to `Player1`,
`Player2`, then every spectator. -/
def broadcastToPlayers (g : Game) (mk : String → Event) : List Event :=
  mk g.player1.id :: mk g.player2.id :: g.spectators.map (fun sp => mk sp.id)

/-- `Manager.BroadcastLobbyStatus` (lobby.go): a `lobby_status` message to
every lobby member. -/
def broadcastLobbyStatus (gm : ManagerState) : List Event :=
  gm.lobby.snapshot.map (fun p => .lobbyStatus p.id)

/-- `Manager.BroadcastGamesList` (lobby.go): a `games_list` message to every
lobby member. -/
def broadcastGamesList (gm : ManagerState) : List Event :=
  gm.lobby.snapshot.map (fun p => .gamesList p.id)

/-- `Manager.AddToLobby` (lobby.go lines 99-109): `Service.Add`; when the
player was actually added, broadcast the lobby status and send them the games
list. -/
def addToLobby (gm : ManagerState) (p : Player) : ManagerState × List Event :=
  if (gm.lobby.add p).2 then
    let gm' := { gm with lobby := (gm.lobby.add p).1 }
    (gm', broadcastLobbyStatus gm' ++ [.gamesList p.id])
  else (gm, [])

/-! ### End of game (endGame, gameplay.go lines 270-306) -/

/-- The re-add snippet of `endGame` for one principal: `if player.Send != nil`
and the player is not already a lobby member, `AddToLobby(player)`. -/
def condAddToLobby (gm : ManagerState) (p : Player) : ManagerState × List Event :=
  if p.hasConn && !(gm.lobby.member p.id) then addToLobby gm p else (gm, [])

/-- `Manager.endGame`: deactivate, set `finished` and the winner string, clear
ready flags, broadcast `game_over` with the final snapshot, re-add each
principal that still has a live connection (and is not already a member) to
the lobby, then re-broadcast the games list and the lobby status. -/
def endGame (gm : ManagerState) (gid : String) (g : Game) (winner : String) :
    ManagerState × Game × List Event :=
  let g' : Game :=
    { g with isActive := false,
             state := { g.state with status := "finished", winner := winner },
             player1 := { g.player1 with ready := false },
             player2 := { g.player2 with ready := false } }
  let gm1 : ManagerState :=
    { gm with games := gm.games.map (fun kv => if kv.1 = gid then (kv.1, g') else kv) }
  let evs1 := broadcastToPlayers g' (fun r => .gameOver r g'.state)
  let r2 := condAddToLobby gm1 g'.player1
  let r3 := condAddToLobby r2.1 g'.player2
  (r3.1, g', evs1 ++ r2.2 ++ r3.2 ++ broadcastGamesList r3.1 ++ broadcastLobbyStatus r3.1)

/-! ### Player removal (RemovePlayer, players.go lines 11-65) -/

/-- The `for gameID, game := range gm.Games` loop of `RemovePlayer`; the map
iteration order is the list order.  The first game having the player as a
principal ends (when active) with winner string `"disconnect"`, the counterpart
is notified (`player_disconnected` when active, a cancel notice otherwise) and
the game is deleted; a game having the player as a spectator only drops the
spectator and re-broadcasts the games list.  Either match returns. -/
def removePlayerGamesLoop (gm : ManagerState) (pid : String) :
    List (String × Game) → ManagerState × List Event
  | [] => (gm, [])
  | (gid, g) :: rest =>
    if g.player1.id = pid ∨ g.player2.id = pid then
      let disconnected := if g.player1.id = pid then g.player1 else g.player2
      let other := if g.player1.id = pid then g.player2 else g.player1
      let r1 :=
        if g.isActive then
          let e := endGame gm gid g "disconnect"
          (e.1, e.2.2)
        else (gm, [])
      let evs2 :=
        if g.isActive then [Event.playerDisconnected other.id gid disconnected.username]
        else [Event.requestCancel other.id disconnected.username]
      let gm2 := { r1.1 with games := r1.1.games.eraseP (fun kv => kv.1 == gid) }
      (gm2, r1.2 ++ evs2)
    else if g.spectators.any (fun sp => sp.id == pid) then
      let g' := { g with spectators := g.spectators.eraseP (fun sp => sp.id == pid) }
      let gm1 := { gm with games := gm.games.map (fun kv => if kv.1 = gid then (kv.1, g') else kv) }
      (gm1, broadcastGamesList gm1)
    else removePlayerGamesLoop gm pid rest

/-- `Manager.RemovePlayer`: remove from the lobby, remove the first matching
entry of the match queue, then run the games loop. -/
def removePlayer (gm : ManagerState) (pid : String) : ManagerState × List Event :=
  let gm1 := { gm with lobby := gm.lobby.remove pid }
  let gm2 := { gm1 with matchQueue := gm1.matchQueue.eraseP (fun p => p.id == pid) }
  removePlayerGamesLoop gm2 pid gm2.games

/-! ### Matchmaking (matchmaking.go) -/

/-- `Manager.SendGameRequest` (matchmaking.go lines 12-65).  The fresh uuid is
passed in as `gameID`.  Failure paths: target absent from the lobby, or an
identical pending edge; both leave the state untouched.  Success registers the
`waiting` game with empty simulation state and the pending edge, then notifies
target and sender. -/
def sendGameRequest (gm : ManagerState) (sender : Player) (toID gameID : String) :
    ManagerState × List Event :=
  match gm.lobby.get toID with
  | none => (gm, [.errorEv sender.id none "Player not found in lobby"])
  | some target =>
    let st : GameState :=
      { id := gameID, snakes := [], food := ⟨⟨0, 0⟩⟩, status := "waiting",
        countdown := 0, winner := "",
        players := [⟨sender.id, sender.username, false⟩, ⟨target.id, target.username, false⟩] }
    let g : Game :=
      { id := gameID, player1 := sender, player2 := target, state := st,
        isActive := false, spectators := [] }
    if gm.pending.any (fun e => e.target == toID && e.sender == sender.id) then
      (gm, [.errorEv sender.id none "You already sent a request to this player"])
    else
      let gm' :=
        { gm with games := (gameID, g) :: gm.games,
                  pending := ⟨toID, sender.id, gameID⟩ :: gm.pending }
      (gm', [.matchFound target.id gameID sender.id,
             .requestSent sender.id gameID toID "pending"])

/-- The pending-request cleanup of `AcceptGameRequest` (matchmaking.go lines
114-129): delete `PendingRequests[acceptor][requesterID]`, then for every
other target delete the acceptor's outgoing edge. -/
def acceptClear (pending : List PendingEdge) (acceptor requesterID : String) :
    List PendingEdge :=
  (pending.eraseP (fun e => e.target == acceptor && e.sender == requesterID)).filter
    (fun e => !(e.target != acceptor && e.sender == acceptor))

/-- `Manager.AcceptGameRequest` (matchmaking.go lines 95-143): unknown game or
a caller other than `Player2` produce an error and change nothing; otherwise
clear pending edges as `acceptClear` does and send `game_accept` with the
current snapshot to both principals, then broadcast the games list. -/
def acceptGameRequest (gm : ManagerState) (p : Player) (gameID : String) :
    ManagerState × List Event :=
  match gm.games.lookup gameID with
  | none => (gm, [.errorEv p.id none "Game not found"])
  | some g =>
    if g.player2.id ≠ p.id then
      (gm, [.errorEv p.id none "You are not the target player"])
    else
      let gm' := { gm with pending := acceptClear gm.pending p.id g.player1.id }
      (gm', [.gameAccept g.player1.id gameID g.state,
             .gameAccept g.player2.id gameID g.state] ++ broadcastGamesList gm')

/-! ### player_move handling (gameplay.go lines 111-161, multiplayer.go) -/

/-- The snake-update loop of `HandlePlayerMove`: the first snake with the
player's id stages `NextDir := direction` unless the requested direction is
the exact opposite of its current direction (then nothing changes); `break`
after the first match. -/
def stageDirection : List Snake → String → Direction → List Snake
  | [], _, _ => []
  | s :: rest, pid, d =>
    if s.id == pid then
      (if d ≠ opposites s.direction then { s with nextDir := d } else s) :: rest
    else s :: stageDirection rest pid d

/-- `Manager.HandlePlayerMove` (gameplay.go lines 111-161): silently return on
an unknown or inactive game; reject non-principals with `NOT_A_PLAYER`;
silently return on an unknown direction string; otherwise stage the pending
direction. -/
def handlePlayerMove (gm : ManagerState) (p : Player) (gameID dirStr : String) :
    ManagerState × List Event :=
  match gm.games.lookup gameID with
  | none => (gm, [])
  | some g =>
    if ¬ g.isActive then (gm, [])
    else if ¬ (g.player1.id = p.id ∨ g.player2.id = p.id) then
      (gm, [.errorEv p.id (some "NOT_A_PLAYER")
              "Only players can move. Spectators can only watch."])
    else
      match parseDirection dirStr with
      | none => (gm, [])
      | some d =>
        let g' := { g with state :=
          { g.state with snakes := stageDirection g.state.snakes p.id d } }
        ({ gm with games :=
            gm.games.map (fun kv => if kv.1 = gameID then (kv.1, g') else kv) }, [])

/-- `MultiplayerGameManager.AuthorizeGameAccess` (multiplayer.go lines 21-47):
principals and spectators of an existing game are authorized. -/
def authorizeGameAccess (gm : ManagerState) (pid gameID : String) : Bool :=
  match gm.games.lookup gameID with
  | none => false
  | some g =>
    g.player1.id == pid || g.player2.id == pid || g.spectators.any (fun sp => sp.id == pid)

/-- `MultiplayerGameManager.HandlePlayerMove` (multiplayer.go lines 50-61):
unauthorized senders get an `UNAUTHORIZED` error; authorized ones are passed
to `Manager.HandlePlayerMove`. -/
def multiplayerHandlePlayerMove (gm : ManagerState) (p : Player) (gameID dirStr : String) :
    ManagerState × List Event :=
  if ¬ authorizeGameAccess gm p.id gameID then
    (gm, [.errorEv p.id (some "UNAUTHORIZED") "You are not authorized to perform this action"])
  else handlePlayerMove gm p gameID dirStr

/-! ### Token connections (websocket_handler.go `handleTokenConnection`).
`auth.ValidateToken` is a collaborator; its outcome is the parameter
`validation` (`none` = invalid or expired token).  The player directory
(`Manager.Players`) is an association list. -/

/-- The claims carried by a valid token. -/
structure TokenClaims where
  playerID : String
  username : String
  deriving DecidableEq, Repr

/-- `WebSocketHandler.handleTokenConnection`: an invalid token sends an error
frame with code `INVALID_TOKEN` and closes the socket, creating nothing; a
valid token rebinds the existing player record (closing any old connection and
attaching a fresh one) or recreates the player from the claims when the record
is missing. -/
def handleTokenConnection (validation : Option TokenClaims)
    (players : List (String × Player)) :
    Option Player × List (String × Player) × List Event :=
  match validation with
  | none => (none, players, [.errorClosed "INVALID_TOKEN" "Invalid token"])
  | some claims =>
    match players.lookup claims.playerID with
    | none =>
      let p : Player :=
        { id := claims.playerID, username := claims.username, hasConn := true, ready := false }
      (some p, (p.id, p) :: players, [])
    | some p =>
      if ¬ p.hasConn then
        let p' := { p with hasConn := true }
        (some p', players.map (fun kv => if kv.1 = p.id then (kv.1, p') else kv), [])
      else
        let p' := { p with hasConn := true }
        (some p', players.map (fun kv => if kv.1 = p.id then (kv.1, p') else kv), [])

/-! ### Test fixtures for witnesses and counterexamples -/

/-- A connected player used by concrete witnesses. -/
def pAlice : Player := { id := "a", username := "alice", hasConn := true, ready := false }

/-- A second connected player. -/
def pBob : Player := { id := "b", username := "bob", hasConn := true, ready := false }

/-- A third connected player. -/
def pCarol : Player := { id := "c", username := "carol", hasConn := true, ready := false }

/-- A connected player that is outside every fixture game. -/
def pXavier : Player := { id := "x", username := "xavier", hasConn := true, ready := false }

/-- A one-member lobby. -/
def lobbyA : LobbyService := { players := [("a", pAlice)], order := ["a"] }

/-- Snake of player `"a"` at the `StartGame` spawn, moving right. -/
def snakeA : Snake :=
  { id := "a", body := [⟨5, 15⟩, ⟨4, 15⟩, ⟨3, 15⟩],
    direction := .right, nextDir := .right, score := 0 }

/-- Snake of player `"b"` at the `StartGame` spawn, moving left. -/
def snakeB : Snake :=
  { id := "b", body := [⟨35, 15⟩, ⟨36, 15⟩, ⟨37, 15⟩],
    direction := .left, nextDir := .left, score := 0 }

/-- An actively playing two-principal game with spectator `pCarol`. -/
def gamePlaying : Game :=
  { id := "g1", player1 := pAlice, player2 := pBob,
    state := { id := "g1", snakes := [snakeA, snakeB], food := ⟨⟨20, 10⟩⟩,
               status := "playing", countdown := 0, winner := "", players := [] },
    isActive := true, spectators := [pCarol] }

/-- A manager hosting `gamePlaying` alone. -/
def gmPlaying : ManagerState :=
  { lobby := ⟨[], []⟩, games := [("g1", gamePlaying)], pending := [], matchQueue := [] }

/-- A disconnected player (its `Send` channel is gone). -/
def pDead : Player := { id := "d", username := "dana", hasConn := false, ready := false }

/-- An actively playing game whose slot-A player `pDead` has disconnected. -/
def gameDisc : Game :=
  { id := "g1", player1 := pDead, player2 := pBob,
    state := { id := "g1",
               snakes := [{ id := "d", body := [⟨5, 15⟩], direction := .right,
                            nextDir := .right, score := 0 },
                          { id := "b", body := [⟨35, 15⟩], direction := .left,
                            nextDir := .left, score := 0 }],
               food := ⟨⟨20, 10⟩⟩, status := "playing", countdown := 0,
               winner := "", players := [] },
    isActive := true, spectators := [] }

/-- A manager hosting `gameDisc`, with `pDead` still in the match queue. -/
def gmDisc : ManagerState :=
  { lobby := ⟨[], []⟩, games := [("g1", gameDisc)], pending := [],
    matchQueue := [pDead] }

/-- A manager with `pBob` alone in the lobby and one pending edge
`a → b` (game `"g0"`). -/
def gmRequest : ManagerState :=
  { lobby := { players := [("b", pBob)], order := ["b"] },
    games := [],
    pending := [⟨"b", "a", "g0"⟩],
    matchQueue := [] }

/-- The waiting game created by `pAlice`'s request to `pBob`. -/
def gameWaitingAB : Game :=
  { id := "g1", player1 := pAlice, player2 := pBob,
    state := { id := "g1", snakes := [], food := ⟨⟨0, 0⟩⟩, status := "waiting",
               countdown := 0, winner := "",
               players := [⟨"a", "alice", false⟩, ⟨"b", "bob", false⟩] },
    isActive := false, spectators := [] }

/-- The waiting game created by `pCarol`'s request to `pBob`. -/
def gameWaitingCB : Game :=
  { id := "g2", player1 := pCarol, player2 := pBob,
    state := { id := "g2", snakes := [], food := ⟨⟨0, 0⟩⟩, status := "waiting",
               countdown := 0, winner := "",
               players := [⟨"c", "carol", false⟩, ⟨"b", "bob", false⟩] },
    isActive := false, spectators := [] }

/-- A manager in which both `pAlice` and `pCarol` have pending requests
targeting `pBob`. -/
def gmAccept : ManagerState :=
  { lobby := ⟨[], []⟩,
    games := [("g1", gameWaitingAB), ("g2", gameWaitingCB)],
    pending := [⟨"b", "a", "g1"⟩, ⟨"b", "c", "g2"⟩],
    matchQueue := [] }

/-! ## Theorems -/

/-! ### Generic association-list helper lemmas -/

/-- Erasing by a key that no element carries changes nothing. -/
theorem eraseKey_no_match {α β : Type} [BEq β] [LawfulBEq β] (f : α → β) (k : β)
    {l : List α} (h : ∀ a ∈ l, f a ≠ k) : l.eraseP (fun x => f x == k) = l :=
  List.eraseP_of_forall_not (by intro a ha; simpa using h a ha)

/-- After erasing by key `k` in a list whose keys are distinct, no element
carries `k` any more. -/
theorem eraseKey_not_mem {α β : Type} [BEq β] [LawfulBEq β] (f : α → β) (k : β)
    {l : List α} (h : (l.map f).Nodup) :
    ∀ a ∈ l.eraseP (fun x => f x == k), f a ≠ k := by
  induction l with
  | nil => simp
  | cons b rest ih =>
    simp only [List.map_cons, List.nodup_cons] at h
    by_cases hb : f b = k
    · rw [List.eraseP_cons_of_pos (by simp [hb])]
      intro a ha hak
      have hm : f a ∈ rest.map f := List.mem_map_of_mem f ha
      rw [hak, ← hb] at hm
      exact h.1 hm
    · rw [List.eraseP_cons_of_neg (by simp [hb])]
      intro a ha
      rcases List.mem_cons.mp ha with rfl | ha'
      · exact hb
      · exact ih h.2 a ha'

/-- Erasing by key is idempotent on a list with distinct keys. -/
theorem eraseKey_idem {α β : Type} [BEq β] [LawfulBEq β] (f : α → β) (k : β)
    {l : List α} (h : (l.map f).Nodup) :
    (l.eraseP (fun x => f x == k)).eraseP (fun x => f x == k)
      = l.eraseP (fun x => f x == k) :=
  eraseKey_no_match f k (eraseKey_not_mem f k h)

/-- `List.lookup` misses exactly when no pair carries the key. -/
theorem lookup_eq_none_iff {β : Type} {l : List (String × β)} {k : String} :
    l.lookup k = none ↔ ∀ kv ∈ l, kv.1 ≠ k := by
  induction l with
  | nil => simp
  | cons kv rest ih =>
    obtain ⟨k', v⟩ := kv
    rw [List.lookup_cons]
    cases h : k == k' with
    | true =>
      simp only [beq_iff_eq] at h
      subst h
      simp
    | false =>
      have h' : k ≠ k' := by simpa using h
      simp [ih, Ne.symm h']

/-- Erasing a key from an association list with distinct keys makes its lookup
miss. -/
theorem lookup_erasePKey_self {β : Type} {l : List (String × β)} {k : String}
    (h : (l.map Prod.fst).Nodup) :
    (l.eraseP (fun kv => kv.1 == k)).lookup k = none :=
  lookup_eq_none_iff.mpr (eraseKey_not_mem Prod.fst k h)

/-- Replacing the value carried by a key not present leaves the list as is. -/
theorem map_replace_no_match {β : Type} {l : List (String × β)} {k : String} {v : β}
    (h : ∀ kv ∈ l, kv.1 ≠ k) :
    l.map (fun kv => if kv.1 = k then (kv.1, v) else kv) = l := by
  induction l with
  | nil => rfl
  | cons kv rest ih =>
    simp only [List.map_cons]
    rw [if_neg (h kv (List.mem_cons_self _ _)), ih (fun x hx => h x (List.mem_cons_of_mem _ hx))]

/-- Replacing the value of the looked-up key by itself leaves an association
list with distinct keys unchanged. -/
theorem map_replace_lookup_self {β : Type} {l : List (String × β)} {k : String} {v : β}
    (hnd : (l.map Prod.fst).Nodup) (hl : l.lookup k = some v) :
    l.map (fun kv => if kv.1 = k then (kv.1, v) else kv) = l := by
  induction l with
  | nil => rfl
  | cons kv rest ih =>
    obtain ⟨k', v'⟩ := kv
    simp only [List.map_cons, List.nodup_cons] at hnd
    rw [List.lookup_cons] at hl
    cases h : k == k' with
    | true =>
      have hkk : k = k' := by simpa using h
      rw [h] at hl
      simp only [Option.some.injEq] at hl
      simp only [List.map_cons, if_pos hkk.symm, hl]
      rw [map_replace_no_match]
      intro kv hkv hk
      have hm : kv.1 ∈ rest.map Prod.fst := List.mem_map_of_mem Prod.fst hkv
      rw [hk, hkk] at hm
      exact hnd.1 hm
    | false =>
      have hkk : k ≠ k' := by simpa using h
      rw [h] at hl
      simp only [List.map_cons, if_neg (Ne.symm hkk)]
      rw [ih hnd.2 hl]

/-- After replacing the value at a key, looking the key up returns the new
value (provided the key occurs). -/
theorem lookup_map_replace {β : Type} {l : List (String × β)} {k : String} {g g' : β}
    (hl : l.lookup k = some g) :
    (l.map (fun kv => if kv.1 = k then (kv.1, g') else kv)).lookup k = some g' := by
  induction l with
  | nil => simp at hl
  | cons kv rest ih =>
    obtain ⟨k', v'⟩ := kv
    rw [List.lookup_cons] at hl
    cases h : k == k' with
    | true =>
      have hkk : k = k' := by simpa using h
      simp only [List.map_cons, if_pos hkk.symm]
      rw [List.lookup_cons, h]
    | false =>
      have hkk : k ≠ k' := by simpa using h
      rw [h] at hl
      simp only [List.map_cons, if_neg (Ne.symm hkk)]
      rw [List.lookup_cons, h]
      exact ih hl

/-- A move request that reverses every snake of the player changes nothing in
the staging loop. -/
theorem stageDirection_reverse_noop (snakes : List Snake) (pid : String) (d : Direction)
    (h : ∀ s ∈ snakes, s.id = pid → d = opposites s.direction) :
    stageDirection snakes pid d = snakes := by
  induction snakes with
  | nil => rfl
  | cons s rest ih =>
    simp only [stageDirection]
    by_cases hs : s.id = pid
    · have hrev := h s (List.mem_cons_self _ _) hs
      simp [hs, hrev]
    · simp only [beq_iff_eq, hs, if_false, if_neg hs]
      rw [ih (fun s' hm => h s' (List.mem_cons_of_mem _ hm))]

/-- The staging loop updates exactly the first snake carrying the player's
id. -/
theorem stageDirection_append (pre : List Snake) (s : Snake) (post : List Snake)
    (pid : String) (d : Direction)
    (hpre : ∀ s' ∈ pre, s'.id ≠ pid) (hs : s.id = pid) :
    stageDirection (pre ++ s :: post) pid d =
      pre ++ (if d ≠ opposites s.direction then { s with nextDir := d } else s) :: post := by
  induction pre with
  | nil => simp [stageDirection, hs]
  | cons q rest ih =>
    have hq : q.id ≠ pid := hpre q (List.mem_cons_self _ _)
    simp only [List.cons_append, stageDirection, beq_iff_eq, hq, if_false, if_neg hq,
      List.append_eq]
    rw [ih (fun s' hm => hpre s' (List.mem_cons_of_mem _ hm))]

/-! ### Claim theorems -/

/-- C1: Collision resolution evaluates in the fixed priority
(a) self-collision (the other principal wins), (b) head-to-head (strictly
higher score wins, equal scores tie), (c) head into the opponent's non-head
body (the body's owner wins); in particular a head-to-head collision at
scores 5 and 3 makes the higher-scoring snake the winner. -/
theorem checkCollisions_priority (s1 s2 : Snake) :
    (selfCollides s1 = true → checkCollisions s1 s2 = s2.id) ∧
    (selfCollides s1 = false → selfCollides s2 = true → checkCollisions s1 s2 = s1.id) ∧
    (selfCollides s1 = false → selfCollides s2 = false → s1.body.headI = s2.body.headI →
      checkCollisions s1 s2 =
        (if s1.score > s2.score then s1.id
         else if s2.score > s1.score then s2.id
         else "tie")) ∧
    (selfCollides s1 = false → selfCollides s2 = false → s1.body.headI ≠ s2.body.headI →
      bodyHits s1.body.headI s2.body.tail = true → checkCollisions s1 s2 = s2.id) ∧
    (selfCollides s1 = false → selfCollides s2 = false → s1.body.headI ≠ s2.body.headI →
      bodyHits s1.body.headI s2.body.tail = false →
      bodyHits s2.body.headI s1.body.tail = true → checkCollisions s1 s2 = s1.id) ∧
    (selfCollides s1 = false → selfCollides s2 = false → s1.body.headI = s2.body.headI →
      s1.score = 5 → s2.score = 3 → checkCollisions s1 s2 = s1.id) := by
  refine ⟨?_, ?_, ?_, ?_, ?_, ?_⟩
  · intro h1
    simp [checkCollisions, h1]
  · intro h1 h2
    simp [checkCollisions, h1, h2]
  · intro h1 h2 h3
    simp [checkCollisions, h1, h2, h3]
  · intro h1 h2 h3 h4
    simp [checkCollisions, h1, h2, h3, h4]
  · intro h1 h2 h3 h4 h5
    simp [checkCollisions, h1, h2, h3, h4, h5]
  · intro h1 h2 h3 h4 h5
    have : s1.score > s2.score := by rw [h4, h5]; norm_num
    simp [checkCollisions, h1, h2, h3, this]

/-- Witness for `checkCollisions_priority`: scenario B, a head-to-head
collision at scores 5 and 3 finishes with the higher-scoring snake winning. -/
theorem checkCollisions_priority_witness :
    checkCollisions
      { id := "A", body := [⟨7, 7⟩, ⟨6, 7⟩], direction := .right, nextDir := .right, score := 5 }
      { id := "B", body := [⟨7, 7⟩, ⟨8, 7⟩], direction := .left, nextDir := .left, score := 3 }
      = "A" :=
  (checkCollisions_priority _ _).2.2.2.2.2 (by decide) (by decide) (by decide) rfl rfl

/-- C2: the tick's head step wraps exactly on all four edges: a head at `x=0`
moving left lands at `x = GRID_WIDTH - 1 = 39`, a head at `x=39` moving right
lands at `x=0`, a head at `y=0` moving up lands at `y = GRID_HEIGHT - 1 = 29`,
a head at `y=29` moving down lands at `y=0` (`nextHead` is the step-and-wrap
computation of `gameLoop` used on every tick). -/
theorem nextHead_wraparound (x y : Int) (hx0 : 0 ≤ x) (hx : x < GRID_WIDTH)
    (hy0 : 0 ≤ y) (hy : y < GRID_HEIGHT) :
    nextHead ⟨0, y⟩ .left = ⟨GRID_WIDTH - 1, y⟩ ∧
    nextHead ⟨GRID_WIDTH - 1, y⟩ .right = ⟨0, y⟩ ∧
    nextHead ⟨x, 0⟩ .up = ⟨x, GRID_HEIGHT - 1⟩ ∧
    nextHead ⟨x, GRID_HEIGHT - 1⟩ .down = ⟨x, 0⟩ := by
  unfold GRID_WIDTH GRID_HEIGHT at *
  refine ⟨?_, ?_, ?_, ?_⟩ <;>
  · simp only [nextHead, stepPos, wrapPos, GRID_WIDTH, GRID_HEIGHT, Position.mk.injEq]
    split_ifs <;> omega

/-- Witness for `nextHead_wraparound` at the concrete in-range cell
`x = 5, y = 7`. -/
theorem nextHead_wraparound_witness :
    nextHead ⟨0, 7⟩ .left = ⟨GRID_WIDTH - 1, 7⟩ ∧
    nextHead ⟨GRID_WIDTH - 1, 7⟩ .right = ⟨0, 7⟩ ∧
    nextHead ⟨5, 0⟩ .up = ⟨5, GRID_HEIGHT - 1⟩ ∧
    nextHead ⟨5, GRID_HEIGHT - 1⟩ .down = ⟨5, 0⟩ :=
  nextHead_wraparound 5 7 (by decide) (by decide) (by decide) (by decide)

/-- C8: Lobby `Add` and `Remove` are idempotent on well-formed services:
adding an already-member id leaves the state (membership and FCFS order)
unchanged, `Add` twice equals `Add` once, removing an absent id changes
nothing and raises no error, and `Remove` twice equals `Remove` once. -/
theorem lobby_add_remove_idempotent (s : LobbyService) (p : Player) (pid : String)
    (hWF : s.WF) :
    (s.member p.id = true → (s.add p).1 = s) ∧
    ((s.add p).1.add p).1 = (s.add p).1 ∧
    (s.member pid = false → s.remove pid = s) ∧
    (s.remove pid).remove pid = s.remove pid := by
  obtain ⟨pl, ord⟩ := s
  have hkeys : (pl.map Prod.fst).Nodup := hWF.1.symm.nodup hWF.2
  refine ⟨?_, ?_, ?_, ?_⟩
  · intro h
    simp only [LobbyService.member] at h
    simp [LobbyService.add, h]
  · cases h : (pl.lookup p.id).isSome with
    | true => simp [LobbyService.add, h]
    | false =>
      simp only [LobbyService.add, h, Bool.false_eq_true, if_false]
      rw [if_pos]
      rw [List.lookup_cons]
      simp
  · intro h
    have hnone : pl.lookup pid = none := by
      cases hl : pl.lookup pid with
      | none => rfl
      | some v =>
        simp only [LobbyService.member, hl, Option.isSome_some] at h
        exact absurd h (by decide)
    have hall : ∀ kv ∈ pl, kv.1 ≠ pid := lookup_eq_none_iff.mp hnone
    have hord : pid ∉ ord := by
      intro hm
      have hm' : pid ∈ pl.map Prod.fst := (hWF.1.mem_iff).mpr hm
      obtain ⟨kv, hkv, hkv'⟩ := List.mem_map.mp hm'
      exact hall kv hkv hkv'
    simp only [LobbyService.remove]
    rw [eraseKey_no_match Prod.fst pid hall, List.erase_of_not_mem hord]
  · simp only [LobbyService.remove]
    rw [eraseKey_idem Prod.fst pid hkeys,
        List.erase_of_not_mem (hWF.2.not_mem_erase)]

/-- Witness for `lobby_add_remove_idempotent` on a concrete one-member lobby:
double add equals single add, and removing an absent id is a no-op. -/
theorem lobby_add_remove_idempotent_witness :
    ((lobbyA.add pBob).1.add pBob).1 = (lobbyA.add pBob).1 ∧
    lobbyA.remove "z" = lobbyA :=
  ⟨(lobby_add_remove_idempotent lobbyA pBob "z" (by constructor <;> decide)).2.1,
   (lobby_add_remove_idempotent lobbyA pBob "z" (by constructor <;> decide)).2.2.1
     (by decide)⟩

/-- C9: a connection attempt whose token fails validation emits an error frame
with code `INVALID_TOKEN` and closes the socket, creating and registering no
player record: the player directory comes back unchanged. -/
theorem tokenConnection_invalid (players : List (String × Player)) :
    handleTokenConnection none players =
      (none, players, [.errorClosed "INVALID_TOKEN" "Invalid token"]) := rfl

/-- C5: `SendGameRequest` fails with the not-found error when the target is
absent from the lobby and with the conflict error when an identical pending
edge already exists, mutating nothing in either case; otherwise it registers a
`waiting` game with empty simulation state, registers the pending edge, and
notifies the target (`match_found`) and the sender (`game_request_sent`,
status `pending`). -/
theorem sendGameRequest_spec (gm : ManagerState) (sender : Player) (toID gameID : String) :
    (gm.lobby.get toID = none →
      sendGameRequest gm sender toID gameID =
        (gm, [.errorEv sender.id none "Player not found in lobby"])) ∧
    (∀ target, gm.lobby.get toID = some target →
      gm.pending.any (fun e => e.target == toID && e.sender == sender.id) = true →
      sendGameRequest gm sender toID gameID =
        (gm, [.errorEv sender.id none "You already sent a request to this player"])) ∧
    (∀ target, gm.lobby.get toID = some target →
      gm.pending.any (fun e => e.target == toID && e.sender == sender.id) = false →
      ∃ g : Game,
        sendGameRequest gm sender toID gameID =
          ({ gm with games := (gameID, g) :: gm.games,
                     pending := ⟨toID, sender.id, gameID⟩ :: gm.pending },
           [.matchFound target.id gameID sender.id,
            .requestSent sender.id gameID toID "pending"]) ∧
        g.state.status = "waiting" ∧ g.state.snakes = [] ∧ g.state.winner = "" ∧
        g.state.countdown = 0 ∧ g.player1 = sender ∧ g.player2 = target ∧
        g.isActive = false ∧ g.spectators = []) := by
  refine ⟨?_, ?_, ?_⟩
  · intro h
    simp [sendGameRequest, h]
  · intro target h1 h2
    simp [sendGameRequest, h1, h2]
  · intro target h1 h2
    refine ⟨{ id := gameID, player1 := sender, player2 := target,
              state := { id := gameID, snakes := [], food := ⟨⟨0, 0⟩⟩,
                         status := "waiting", countdown := 0, winner := "",
                         players := [⟨sender.id, sender.username, false⟩,
                                     ⟨target.id, target.username, false⟩] },
              isActive := false, spectators := [] },
            ?_, rfl, rfl, rfl, rfl, rfl, rfl, rfl, rfl⟩
    simp [sendGameRequest, h1, h2]

/-- Witness for `sendGameRequest_spec`: on the concrete `gmRequest`, an absent
target yields the not-found error and a duplicate edge yields the conflict
error, both leaving the state untouched. -/
theorem sendGameRequest_spec_witness :
    sendGameRequest gmRequest pAlice "zz" "g9" =
      (gmRequest, [.errorEv pAlice.id none "Player not found in lobby"]) ∧
    sendGameRequest gmRequest pAlice "b" "g9" =
      (gmRequest, [.errorEv pAlice.id none "You already sent a request to this player"]) :=
  ⟨(sendGameRequest_spec gmRequest pAlice "zz" "g9").1 (by decide),
   (sendGameRequest_spec gmRequest pAlice "b" "g9").2.1 pBob (by decide) (by decide)⟩

/-- C7: a `player_move` from a principal requesting the exact reverse of the
snake's current direction leaves the whole state unchanged and emits no
message (silent ignore); any non-reverse direction is staged into `NextDir`
only, leaving the current direction untouched until the next tick's promotion
applies it. -/
theorem handlePlayerMove_reversal (gm : ManagerState) (p : Player)
    (gameID dirStr : String) (g : Game) (d : Direction)
    (hkeys : (gm.games.map Prod.fst).Nodup)
    (hg : gm.games.lookup gameID = some g)
    (hact : g.isActive = true)
    (hpr : g.player1.id = p.id ∨ g.player2.id = p.id)
    (hd : parseDirection dirStr = some d) :
    ((∀ s ∈ g.state.snakes, s.id = p.id → d = opposites s.direction) →
      handlePlayerMove gm p gameID dirStr = (gm, [])) ∧
    (∀ pre s post, g.state.snakes = pre ++ s :: post →
      (∀ s' ∈ pre, s'.id ≠ p.id) → s.id = p.id → d ≠ opposites s.direction →
      (handlePlayerMove gm p gameID dirStr).2 = [] ∧
      ∃ g', (handlePlayerMove gm p gameID dirStr).1.games.lookup gameID = some g' ∧
        g'.state.snakes = pre ++ { s with nextDir := d } :: post ∧
        ({ s with nextDir := d } : Snake).direction = s.direction ∧
        promoteSnake { s with nextDir := d } = { s with direction := d, nextDir := d }) := by
  have hcomp : handlePlayerMove gm p gameID dirStr =
      ({ gm with games := gm.games.map (fun kv => if kv.1 = gameID then
          (kv.1, { g with state :=
            { g.state with snakes := stageDirection g.state.snakes p.id d } }) else kv) },
       []) := by
    simp only [handlePlayerMove, hg]
    rw [if_neg (not_not_intro hact), if_neg (not_not_intro hpr)]
    simp only [hd]
  constructor
  · intro hrev
    have hstage : stageDirection g.state.snakes p.id d = g.state.snakes :=
      stageDirection_reverse_noop _ _ _ hrev
    have hgame : ({ g with state :=
        { g.state with snakes := stageDirection g.state.snakes p.id d } } : Game) = g := by
      rw [hstage]
    rw [hcomp]
    simp only [hgame]
    rw [map_replace_lookup_self hkeys hg]
  · intro pre s post hsn hpre hsid hnrev
    have hstage : stageDirection g.state.snakes p.id d =
        pre ++ { s with nextDir := d } :: post := by
      rw [hsn, stageDirection_append pre s post p.id d hpre hsid, if_pos hnrev]
    rw [hcomp]
    refine ⟨rfl, ?_⟩
    refine ⟨_, lookup_map_replace hg, ?_, rfl, rfl⟩
    simpa using hstage

/-- Witness for `handlePlayerMove_reversal`: in `gmPlaying`, player `"a"` is
moving right; a `"left"` request changes nothing and a `"up"` request stages
`NextDir` only. -/
theorem handlePlayerMove_reversal_witness :
    handlePlayerMove gmPlaying pAlice "g1" "left" = (gmPlaying, []) :=
  (handlePlayerMove_reversal gmPlaying pAlice "g1" "left" gamePlaying .left
    (by decide) (by decide) (by decide) (Or.inl (by decide)) (by decide)).1
    (by decide)

/-- C6 (counterexample): a `player_move` whose sender is neither a principal
nor a spectator of the referenced active game is answered with the
`UNAUTHORIZED` error of `MultiplayerGameManager.HandlePlayerMove`, not with
`NOT_A_PLAYER`, refuting the claim that every non-principal sender receives
`NOT_A_PLAYER`. -/
theorem playerMove_nonprincipal_cex :
    multiplayerHandlePlayerMove gmPlaying pXavier "g1" "up" =
      (gmPlaying, [.errorEv "x" (some "UNAUTHORIZED")
        "You are not authorized to perform this action"]) ∧
    Event.errorEv "x" (some "NOT_A_PLAYER")
        "Only players can move. Spectators can only watch."
      ∉ (multiplayerHandlePlayerMove gmPlaying pXavier "g1" "up").2 := by
  constructor
  · decide
  · decide

/-- C6 (amended): a `player_move` on an active game from a sender that is not
a principal leaves the state unchanged and is answered with an error event:
`NOT_A_PLAYER` when the sender is a spectator of the game, `UNAUTHORIZED`
when the sender has no access at all. -/
theorem playerMove_nonprincipal (gm : ManagerState) (p : Player)
    (gameID dirStr : String) (g : Game)
    (hg : gm.games.lookup gameID = some g)
    (hact : g.isActive = true)
    (hnp1 : g.player1.id ≠ p.id) (hnp2 : g.player2.id ≠ p.id) :
    (g.spectators.any (fun sp => sp.id == p.id) = true →
      multiplayerHandlePlayerMove gm p gameID dirStr =
        (gm, [.errorEv p.id (some "NOT_A_PLAYER")
                "Only players can move. Spectators can only watch."])) ∧
    (g.spectators.any (fun sp => sp.id == p.id) = false →
      multiplayerHandlePlayerMove gm p gameID dirStr =
        (gm, [.errorEv p.id (some "UNAUTHORIZED")
                "You are not authorized to perform this action"])) := by
  constructor
  · intro hspec
    have hauth : authorizeGameAccess gm p.id gameID = true := by
      simp [authorizeGameAccess, hg, hspec]
    simp only [multiplayerHandlePlayerMove, hauth]
    rw [if_neg (by simp)]
    simp only [handlePlayerMove, hg]
    rw [if_neg (by simpa using hact), if_pos (by simp [hnp1, hnp2])]
  · intro hspec
    have hauth : authorizeGameAccess gm p.id gameID = false := by
      simp only [authorizeGameAccess, hg]
      simp [hnp1, hnp2, hspec]
    simp [multiplayerHandlePlayerMove, hauth]

/-- Witness for `playerMove_nonprincipal`: spectator `pCarol` of `gmPlaying`
gets `NOT_A_PLAYER` and the state is unchanged. -/
theorem playerMove_nonprincipal_witness :
    multiplayerHandlePlayerMove gmPlaying pCarol "g1" "up" =
      (gmPlaying, [.errorEv pCarol.id (some "NOT_A_PLAYER")
        "Only players can move. Spectators can only watch."]) :=
  (playerMove_nonprincipal gmPlaying pCarol "g1" "up" gamePlaying
    (by decide) (by decide) (by decide) (by decide)).1 (by decide)

/-- After erasing the `(a, r)` edge from a list with distinct
`(target, sender)` pairs, no `(a, r)` edge remains. -/
theorem erasePair_not_mem (l : List PendingEdge) (a r : String)
    (hnd : (l.map (fun e => (e.target, e.sender))).Nodup) :
    ∀ e ∈ l.eraseP (fun e => e.target == a && e.sender == r),
      ¬(e.target = a ∧ e.sender = r) := by
  induction l with
  | nil => simp
  | cons b rest ih =>
    simp only [List.map_cons, List.nodup_cons] at hnd
    by_cases hb : b.target = a ∧ b.sender = r
    · rw [List.eraseP_cons_of_pos (by simp [hb.1, hb.2])]
      intro e he hee
      apply hnd.1
      have hm : (e.target, e.sender) ∈ rest.map (fun e => (e.target, e.sender)) :=
        List.mem_map_of_mem _ he
      rw [hee.1, hee.2] at hm
      rw [hb.1, hb.2]
      exact hm
    · rw [List.eraseP_cons_of_neg
        (by simp only [Bool.and_eq_true, beq_iff_eq]; exact hb)]
      intro e he hee
      rcases List.mem_cons.mp he with rfl | he'
      · exact hb hee
      · exact ih hnd.2 e he' hee

/-- The three facts about the pending-edge cleanup of `AcceptGameRequest`:
the accepted requester's edge is gone, every outgoing edge of the acceptor is
gone, and incoming edges from other requesters to the acceptor survive. -/
theorem acceptClear_spec (pending : List PendingEdge) (a r : String)
    (hnd : (pending.map (fun e => (e.target, e.sender))).Nodup) :
    (∀ e ∈ acceptClear pending a r, ¬(e.target = a ∧ e.sender = r)) ∧
    (∀ e ∈ acceptClear pending a r, ¬(e.target ≠ a ∧ e.sender = a)) ∧
    (∀ e ∈ pending, e.target = a → e.sender ≠ r → e ∈ acceptClear pending a r) := by
  refine ⟨?_, ?_, ?_⟩
  · intro e he
    have he' : e ∈ pending.eraseP (fun e => e.target == a && e.sender == r) :=
      (List.mem_filter.mp he).1
    exact erasePair_not_mem pending a r hnd e he'
  · intro e he hee
    have hf := (List.mem_filter.mp he).2
    simp [hee.1, hee.2] at hf
  · intro e he h1 h2
    apply List.mem_filter.mpr
    constructor
    · exact (List.mem_eraseP_of_neg (by simp [h2])).mpr he
    · simp [h1]

/-- C4 (counterexample): accepting `pAlice`'s request does not clear the other
pending edge targeting the acceptor: `pCarol`'s edge to `pBob` survives even
though the accept succeeds (both principals are notified). -/
theorem acceptGameRequest_cex :
    (⟨"b", "c", "g2"⟩ : PendingEdge) ∈ (acceptGameRequest gmAccept pBob "g1").1.pending ∧
    Event.gameAccept "a" "g1" gameWaitingAB.state ∈ (acceptGameRequest gmAccept pBob "g1").2 := by
  constructor
  · decide
  · decide

/-- C4 (amended): only the designated target (slot B) may accept — anyone
else gets an error and nothing changes; a successful accept clears the
accepted requester's edge to the acceptor and every edge where the acceptor
is the requester, sends `game_accept` carrying the current snapshot to both
principals, but leaves pending edges to the acceptor from other requesters in
place. -/
theorem acceptGameRequest_amended (gm : ManagerState) (p : Player) (gameID : String)
    (g : Game)
    (hg : gm.games.lookup gameID = some g)
    (hnd : (gm.pending.map (fun e => (e.target, e.sender))).Nodup) :
    (g.player2.id ≠ p.id →
      acceptGameRequest gm p gameID =
        (gm, [.errorEv p.id none "You are not the target player"])) ∧
    (g.player2.id = p.id →
      (acceptGameRequest gm p gameID).1 =
        { gm with pending := acceptClear gm.pending p.id g.player1.id } ∧
      Event.gameAccept g.player1.id gameID g.state ∈ (acceptGameRequest gm p gameID).2 ∧
      Event.gameAccept g.player2.id gameID g.state ∈ (acceptGameRequest gm p gameID).2 ∧
      (∀ e ∈ (acceptGameRequest gm p gameID).1.pending,
        ¬(e.target = p.id ∧ e.sender = g.player1.id)) ∧
      (∀ e ∈ (acceptGameRequest gm p gameID).1.pending,
        ¬(e.target ≠ p.id ∧ e.sender = p.id)) ∧
      (∀ e ∈ gm.pending, e.target = p.id → e.sender ≠ g.player1.id →
        e ∈ (acceptGameRequest gm p gameID).1.pending)) := by
  constructor
  · intro h
    simp [acceptGameRequest, hg, h]
  · intro hp
    have hcomp : acceptGameRequest gm p gameID =
        ({ gm with pending := acceptClear gm.pending p.id g.player1.id },
         [.gameAccept g.player1.id gameID g.state,
          .gameAccept g.player2.id gameID g.state] ++
           broadcastGamesList
             { gm with pending := acceptClear gm.pending p.id g.player1.id }) := by
      simp only [acceptGameRequest, hg]
      rw [if_neg (not_not_intro hp)]
    obtain ⟨h1, h2, h3⟩ := acceptClear_spec gm.pending p.id g.player1.id hnd
    rw [hcomp]
    refine ⟨rfl, by simp, by simp, h1, h2, h3⟩

/-- Witness for `acceptGameRequest_amended`: on `gmAccept`, accepting
`pAlice`'s request leaves exactly the cleaned pending list, in which
`pCarol`'s incoming edge is preserved. -/
theorem acceptGameRequest_amended_witness :
    (acceptGameRequest gmAccept pBob "g1").1 =
      { gmAccept with pending := acceptClear gmAccept.pending pBob.id pAlice.id } ∧
    (⟨"b", "c", "g2"⟩ : PendingEdge) ∈ (acceptGameRequest gmAccept pBob "g1").1.pending :=
  ⟨((acceptGameRequest_amended gmAccept pBob "g1" gameWaitingAB
      (by decide) (by decide)).2 (by decide)).1,
   ((acceptGameRequest_amended gmAccept pBob "g1" gameWaitingAB
      (by decide) (by decide)).2 (by decide)).2.2.2.2.2
     ⟨"b", "c", "g2"⟩ (by decide) (by decide) (by decide)⟩

/-- The cell check of `generateFood` is exactly disequality of positions. -/
theorem cellHit_iff (c p : Position) : (!(c.x == p.x && c.y == p.y)) = true ↔ c ≠ p := by
  cases c
  cases p
  simp only [Position.mk.injEq, Bool.not_eq_true', Bool.and_eq_false_iff, ne_eq,
    Bool.not_eq_true, beq_eq_false_iff_ne]
  tauto

/-- `isValidFood` as a proposition: the candidate lies on no snake cell. -/
theorem isValidFood_iff {p : Position} {snakes : List Snake} :
    isValidFood p snakes = true ↔ ∀ s ∈ snakes, ∀ c ∈ s.body, c ≠ p := by
  simp only [isValidFood, List.all_eq_true, cellHit_iff]

/-- Promoting pending directions touches no body, so food validity is
unchanged. -/
theorem isValidFood_promote {p : Position} {snakes : List Snake} :
    isValidFood p (snakes.map promoteSnake) = isValidFood p snakes := by
  simp only [isValidFood, List.all_map]
  rfl

/-- The movement loop preserves the food invariant: if the food lies on no
snake cell of the moved-plus-unmoved list, any successful run ends with the
food on no snake cell. -/
theorem moveSnakes_valid (cands : List Position) :
    ∀ (rest done : List Snake) (food : Food) (res : List Snake × Food),
      isValidFood food.position (done ++ rest) = true →
      moveSnakes cands done food rest = some res →
      isValidFood res.2.position res.1 = true := by
  intro rest
  induction rest with
  | nil =>
    intro done food res hv hm
    simp only [moveSnakes, Option.some.injEq] at hm
    rw [← hm]
    simpa using hv
  | cons s rest' ih =>
    intro done food res hv hm
    by_cases he : nextHead s.body.headI s.direction = food.position
    · have hunf : moveSnakes cands done food (s :: rest') =
          match generateFood cands (done ++
              { s with body := nextHead s.body.headI s.direction :: s.body,
                       score := s.score + 1 } :: rest') with
          | none => none
          | some f =>
            moveSnakes cands (done ++
              [{ s with body := nextHead s.body.headI s.direction :: s.body,
                        score := s.score + 1 }]) ⟨f⟩ rest' := by
        simp only [moveSnakes]
        rw [if_pos he]
      rw [hunf] at hm
      cases hgf : generateFood cands (done ++
          { s with body := nextHead s.body.headI s.direction :: s.body,
                   score := s.score + 1 } :: rest') with
      | none =>
        rw [hgf] at hm
        exact absurd hm (by simp)
      | some f =>
        rw [hgf] at hm
        refine ih _ _ res ?_ hm
        have hgf' := hgf
        rw [generateFood] at hgf'
        have hvf : isValidFood f (done ++
            { s with body := nextHead s.body.headI s.direction :: s.body,
                     score := s.score + 1 } :: rest') = true := by
          simpa using List.find?_some hgf'
        simpa [List.append_assoc] using hvf
    · have hunf : moveSnakes cands done food (s :: rest') =
          moveSnakes cands (done ++
            [{ s with
                body := (nextHead s.body.headI s.direction :: s.body).dropLast }])
            food rest' := by
        simp only [moveSnakes]
        rw [if_neg he]
      rw [hunf] at hm
      refine ih _ _ res ?_ hm
      rw [isValidFood_iff] at hv ⊢
      intro t ht c hc
      rcases List.mem_append.mp ht with ht1 | ht2
      · rcases List.mem_append.mp ht1 with htd | hts
        · exact hv t (List.mem_append.mpr (Or.inl htd)) c hc
        · have hteq : t = { s with
              body := (nextHead s.body.headI s.direction :: s.body).dropLast } := by
            simpa using hts
          rw [hteq] at hc
          have hc' : c ∈ nextHead s.body.headI s.direction :: s.body :=
            List.dropLast_subset _ hc
          rcases List.mem_cons.mp hc' with rfl | hcb
          · exact he
          · exact hv s (List.mem_append.mpr (Or.inr (List.mem_cons_self _ _))) c hcb
      · exact hv t (List.mem_append.mpr (Or.inr (List.mem_cons_of_mem _ ht2))) c hc

/-- C10: the food never overlaps a snake cell: (1) `generateFood` returns
only a cell on no snake body; (2) a tick step whose new head equals the food
increments the score and regenerates the food via `generateFood` over all
snakes; (3) a step that misses the food drops the tail, keeping the length
constant; (4) the whole movement phase of a tick preserves the
no-overlap invariant. -/
theorem food_never_on_snake (cands : List Position) :
    (∀ snakes p, generateFood cands snakes = some p → isValidFood p snakes = true) ∧
    (∀ (done rest : List Snake) (food : Food) (s : Snake) res,
      nextHead s.body.headI s.direction = food.position →
      moveSnakes cands done food (s :: rest) = some res →
      ∃ f, generateFood cands (done ++
            { s with body := nextHead s.body.headI s.direction :: s.body,
                     score := s.score + 1 } :: rest) = some f ∧
        moveSnakes cands (done ++
            [{ s with body := nextHead s.body.headI s.direction :: s.body,
                      score := s.score + 1 }]) ⟨f⟩ rest = some res) ∧
    (∀ (done rest : List Snake) (food : Food) (s : Snake),
      nextHead s.body.headI s.direction ≠ food.position →
      moveSnakes cands done food (s :: rest) =
        moveSnakes cands (done ++
          [{ s with
              body := (nextHead s.body.headI s.direction :: s.body).dropLast }])
          food rest ∧
      (s.body ≠ [] →
        ((nextHead s.body.headI s.direction :: s.body).dropLast).length
          = s.body.length)) ∧
    (∀ snakes (food : Food) res, isValidFood food.position snakes = true →
      tickMove cands snakes food = some res →
      isValidFood res.2.position res.1 = true) := by
  refine ⟨?_, ?_, ?_, ?_⟩
  · intro snakes p h
    rw [generateFood] at h
    simpa using List.find?_some h
  · intro done rest food s res he hm
    have hunf : moveSnakes cands done food (s :: rest) =
        match generateFood cands (done ++
            { s with body := nextHead s.body.headI s.direction :: s.body,
                     score := s.score + 1 } :: rest) with
        | none => none
        | some f =>
          moveSnakes cands (done ++
            [{ s with body := nextHead s.body.headI s.direction :: s.body,
                      score := s.score + 1 }]) ⟨f⟩ rest := by
      simp only [moveSnakes]
      rw [if_pos he]
    rw [hunf] at hm
    cases hgf : generateFood cands (done ++
        { s with body := nextHead s.body.headI s.direction :: s.body,
                 score := s.score + 1 } :: rest) with
    | none =>
      rw [hgf] at hm
      exact absurd hm (by simp)
    | some f =>
      rw [hgf] at hm
      exact ⟨f, rfl, hm⟩
  · intro done rest food s he
    constructor
    · simp only [moveSnakes]
      rw [if_neg he]
    · intro hne
      simp [List.length_dropLast]
  · intro snakes food res hv hm
    refine moveSnakes_valid cands (snakes.map promoteSnake) [] food res ?_ hm
    simpa [isValidFood_promote] using hv

/-- Witness for `food_never_on_snake`: a concrete tick in which snake `"a"`
eats the food at `(6,15)` (score 1, length 4) and the regenerated food
`(0,0)` overlaps no snake. -/
theorem food_never_on_snake_witness :
    tickMove [⟨0, 0⟩] [snakeA, snakeB] ⟨⟨6, 15⟩⟩ =
      some ([{ id := "a",
               body := [⟨6, 15⟩, ⟨5, 15⟩, ⟨4, 15⟩, ⟨3, 15⟩],
               direction := .right, nextDir := .right, score := 1 },
             { id := "b",
               body := [⟨34, 15⟩, ⟨35, 15⟩, ⟨36, 15⟩],
               direction := .left, nextDir := .left, score := 0 }],
            ⟨⟨0, 0⟩⟩) ∧
    isValidFood (⟨0, 0⟩ : Position)
      [{ id := "a",
         body := [⟨6, 15⟩, ⟨5, 15⟩, ⟨4, 15⟩, ⟨3, 15⟩],
         direction := .right, nextDir := .right, score := 1 },
       { id := "b",
         body := [⟨34, 15⟩, ⟨35, 15⟩, ⟨36, 15⟩],
         direction := .left, nextDir := .left, score := 0 }] = true :=
  ⟨by decide,
   (food_never_on_snake [⟨0, 0⟩]).2.2.2 [snakeA, snakeB] ⟨⟨6, 15⟩⟩
     ([{ id := "a",
         body := [⟨6, 15⟩, ⟨5, 15⟩, ⟨4, 15⟩, ⟨3, 15⟩],
         direction := .right, nextDir := .right, score := 1 },
       { id := "b",
         body := [⟨34, 15⟩, ⟨35, 15⟩, ⟨36, 15⟩],
         direction := .left, nextDir := .left, score := 0 }],
      ⟨⟨0, 0⟩⟩) (by decide) (by decide)⟩

/-! ### Helper lemmas about lobby re-addition and `endGame` -/

/-- After `Service.Add`, the added id is a member (it either already was, or
the pair was inserted). -/
theorem member_add_self (s : LobbyService) (p : Player) :
    ((s.add p).1).member p.id = true := by
  by_cases h : (s.players.lookup p.id).isSome = true
  · simp [LobbyService.add, h, LobbyService.member]
  · simp only [LobbyService.add, h, if_false, if_neg h]
    simp [LobbyService.member, List.lookup_cons]

/-- `Service.Add` never removes a member. -/
theorem member_add_preserve (s : LobbyService) (p : Player) (k : String)
    (h : s.member k = true) : ((s.add p).1).member k = true := by
  by_cases hp : (s.players.lookup p.id).isSome = true
  · simpa [LobbyService.add, hp] using h
  · simp [LobbyService.add, hp, LobbyService.member] at h ⊢
    exact Or.inr h

/-- `Service.Add` of a different id keeps a non-member out. -/
theorem member_add_false (s : LobbyService) (p : Player) (k : String)
    (hk : k ≠ p.id) (h : s.member k = false) : ((s.add p).1).member k = false := by
  by_cases hp : (s.players.lookup p.id).isSome = true
  · simpa [LobbyService.add, hp] using h
  · simp [LobbyService.add, hp, LobbyService.member] at h ⊢
    exact ⟨hk, h⟩

/-- `Manager.AddToLobby` leaves the match queue alone. -/
theorem addToLobby_matchQueue (gm : ManagerState) (p : Player) :
    (addToLobby gm p).1.matchQueue = gm.matchQueue := by
  by_cases h : (gm.lobby.add p).2 = true
  · simp [addToLobby, h]
  · simp [addToLobby, h]

/-- After `Manager.AddToLobby`, the player is a lobby member. -/
theorem addToLobby_member_self (gm : ManagerState) (p : Player) :
    (addToLobby gm p).1.lobby.member p.id = true := by
  by_cases h : (gm.lobby.players.lookup p.id).isSome = true
  · simp [addToLobby, LobbyService.add, h, LobbyService.member]
  · simp only [addToLobby, LobbyService.add, h, if_false, if_neg h]
    simp [LobbyService.member, List.lookup_cons]

/-- `Manager.AddToLobby` never removes a member. -/
theorem addToLobby_member_preserve (gm : ManagerState) (p : Player) (k : String)
    (h : gm.lobby.member k = true) : (addToLobby gm p).1.lobby.member k = true := by
  by_cases hb : (gm.lobby.add p).2 = true
  · simp only [addToLobby, hb, if_true]
    exact member_add_preserve gm.lobby p k h
  · simpa [addToLobby, hb] using h

/-- `Manager.AddToLobby` of a different id keeps a non-member out. -/
theorem addToLobby_member_false (gm : ManagerState) (p : Player) (k : String)
    (hk : k ≠ p.id) (h : gm.lobby.member k = false) :
    (addToLobby gm p).1.lobby.member k = false := by
  by_cases hb : (gm.lobby.add p).2 = true
  · simp only [addToLobby, hb, if_true]
    exact member_add_false gm.lobby p k hk h
  · simpa [addToLobby, hb] using h

/-- The conditional lobby re-add leaves the match queue alone. -/
theorem condAdd_matchQueue (gm : ManagerState) (p : Player) :
    (condAddToLobby gm p).1.matchQueue = gm.matchQueue := by
  by_cases h : (p.hasConn && !(gm.lobby.member p.id)) = true
  · simp only [condAddToLobby, h, if_true]
    exact addToLobby_matchQueue gm p
  · simp [condAddToLobby, h]

/-- A still-connected principal is a lobby member after the conditional
re-add. -/
theorem condAdd_member_self (gm : ManagerState) (p : Player)
    (h : p.hasConn = true) : (condAddToLobby gm p).1.lobby.member p.id = true := by
  by_cases hm : gm.lobby.member p.id = true
  · simp [condAddToLobby, hm]
  · have hm' : gm.lobby.member p.id = false := by
      cases hmm : gm.lobby.member p.id
      · rfl
      · exact absurd hmm hm
    simp only [condAddToLobby, h, hm', Bool.not_false, Bool.and_true, if_true]
    exact addToLobby_member_self gm p

/-- The conditional re-add never removes a member. -/
theorem condAdd_member_preserve (gm : ManagerState) (p : Player) (k : String)
    (h : gm.lobby.member k = true) : (condAddToLobby gm p).1.lobby.member k = true := by
  by_cases hb : (p.hasConn && !(gm.lobby.member p.id)) = true
  · simp only [condAddToLobby, hb, if_true]
    exact addToLobby_member_preserve gm p k h
  · simpa [condAddToLobby, hb] using h

/-- The conditional re-add keeps a non-member out, provided the player is
disconnected or carries a different id. -/
theorem condAdd_member_false (gm : ManagerState) (p : Player) (k : String)
    (hk : p.hasConn = false ∨ k ≠ p.id) (h : gm.lobby.member k = false) :
    (condAddToLobby gm p).1.lobby.member k = false := by
  rcases hk with hk | hk
  · simpa [condAddToLobby, hk] using h
  · by_cases hb : (p.hasConn && !(gm.lobby.member p.id)) = true
    · simp only [condAddToLobby, hb, if_true]
      exact addToLobby_member_false gm p k hk h
    · simpa [condAddToLobby, hb] using h

/-- Behavioral summary of `endGame`: the `game_over` broadcast carries the
`finished` snapshot with the given winner string to both principals, the match
queue is untouched, connected principals end up lobby members, and a
non-member stays out when each principal is either disconnected or carries a
different id. -/
theorem endGame_spec (gm : ManagerState) (gid : String) (g : Game) (winner : String) :
    Event.gameOver g.player1.id { g.state with status := "finished", winner := winner }
      ∈ (endGame gm gid g winner).2.2 ∧
    Event.gameOver g.player2.id { g.state with status := "finished", winner := winner }
      ∈ (endGame gm gid g winner).2.2 ∧
    (endGame gm gid g winner).1.matchQueue = gm.matchQueue ∧
    (g.player1.hasConn = true →
      (endGame gm gid g winner).1.lobby.member g.player1.id = true) ∧
    (g.player2.hasConn = true →
      (endGame gm gid g winner).1.lobby.member g.player2.id = true) ∧
    (∀ k, gm.lobby.member k = false →
      (g.player1.hasConn = false ∨ k ≠ g.player1.id) →
      (g.player2.hasConn = false ∨ k ≠ g.player2.id) →
      (endGame gm gid g winner).1.lobby.member k = false) := by
  refine ⟨?_, ?_, ?_, ?_, ?_, ?_⟩
  · simp [endGame, broadcastToPlayers]
  · simp [endGame, broadcastToPlayers]
  · simp only [endGame]
    rw [condAdd_matchQueue, condAdd_matchQueue]
  · intro h
    exact condAdd_member_preserve _ _ _ (condAdd_member_self _ _ h)
  · intro h
    exact condAdd_member_self _ _ h
  · intro k hmem h1 h2
    exact condAdd_member_false _ _ _ h2 (condAdd_member_false _ _ _ h1 hmem)

/-- The games loop of `RemovePlayer` skips every game that does not involve
the player. -/
theorem removePlayerGamesLoop_append (gm : ManagerState) (pid : String)
    (pre rest : List (String × Game))
    (hpre : ∀ kv ∈ pre, kv.2.player1.id ≠ pid ∧ kv.2.player2.id ≠ pid ∧
      kv.2.spectators.any (fun sp => sp.id == pid) = false) :
    removePlayerGamesLoop gm pid (pre ++ rest) = removePlayerGamesLoop gm pid rest := by
  induction pre with
  | nil => rfl
  | cons kv pre' ih =>
    obtain ⟨gid, g⟩ := kv
    obtain ⟨h1, h2, h3⟩ := hpre (gid, g) (List.mem_cons_self _ _)
    simp only [List.cons_append, removePlayerGamesLoop, List.append_eq]
    rw [if_neg (not_or.mpr ⟨h1, h2⟩), if_neg (by simp [h3])]
    exact ih (fun kv hm => hpre kv (List.mem_cons_of_mem _ hm))

/-- C3: removing the principal `pid` of an actively playing game (the player
having no live connection left) forces the game to `finished` with the winner
string `"disconnect"` — which names no principal — broadcasts that final
snapshot, notifies the surviving principal with `player_disconnected`,
returns the survivor to the lobby when they still have a live connection, and
in every case removes `pid` from the lobby and from the match queue. -/
theorem removePlayer_disconnect (gm : ManagerState) (pid gid : String) (g : Game)
    (pre post : List (String × Game)) (other disconnected : Player)
    (hgames : gm.games = pre ++ (gid, g) :: post)
    (hpre : ∀ kv ∈ pre, kv.2.player1.id ≠ pid ∧ kv.2.player2.id ≠ pid ∧
      kv.2.spectators.any (fun sp => sp.id == pid) = false)
    (hprin : g.player1.id = pid ∨ g.player2.id = pid)
    (hdisc : disconnected = (if g.player1.id = pid then g.player1 else g.player2))
    (hoth : other = (if g.player1.id = pid then g.player2 else g.player1))
    (hact : g.isActive = true)
    (hdc : disconnected.hasConn = false)
    (hone : other.id ≠ pid)
    (hlobbyWF : (gm.lobby.players.map Prod.fst).Nodup)
    (hqWF : (gm.matchQueue.map Player.id).Nodup)
    (hw1 : g.player1.id ≠ "disconnect") (hw2 : g.player2.id ≠ "disconnect") :
    Event.gameOver other.id { g.state with status := "finished", winner := "disconnect" }
      ∈ (removePlayer gm pid).2 ∧
    ({ g.state with status := "finished", winner := "disconnect" }).winner ≠ g.player1.id ∧
    ({ g.state with status := "finished", winner := "disconnect" }).winner ≠ g.player2.id ∧
    Event.playerDisconnected other.id gid disconnected.username ∈ (removePlayer gm pid).2 ∧
    (other.hasConn = true → (removePlayer gm pid).1.lobby.member other.id = true) ∧
    (removePlayer gm pid).1.lobby.member pid = false ∧
    (∀ q ∈ (removePlayer gm pid).1.matchQueue, q.id ≠ pid) := by
  set gm2 : ManagerState :=
    { gm with lobby := gm.lobby.remove pid,
              matchQueue := gm.matchQueue.eraseP (fun p => p.id == pid) } with hgm2
  have h0 : removePlayer gm pid = removePlayerGamesLoop gm2 pid gm.games := rfl
  rw [hgames] at h0
  rw [removePlayerGamesLoop_append _ _ pre _ hpre] at h0
  have h1 : removePlayerGamesLoop gm2 pid ((gid, g) :: post) =
      ({ (endGame gm2 gid g "disconnect").1 with
          games := (endGame gm2 gid g "disconnect").1.games.eraseP
            (fun kv => kv.1 == gid) },
       (endGame gm2 gid g "disconnect").2.2 ++
         [Event.playerDisconnected other.id gid disconnected.username]) := by
    simp only [removePlayerGamesLoop]
    rw [if_pos hprin, if_pos hact, if_pos hact, hdisc, hoth]
  rw [h1] at h0
  obtain ⟨e1, e2, e3, e4, e5, e6⟩ := endGame_spec gm2 gid g "disconnect"
  have hmem2 : gm2.lobby.member pid = false := by
    rw [hgm2]
    simp [LobbyService.remove, LobbyService.member, lookup_erasePKey_self hlobbyWF]
  refine ⟨?_, Ne.symm hw1, Ne.symm hw2, ?_, ?_, ?_, ?_⟩
  · rw [h0]
    apply List.mem_append_left
    by_cases hc : g.player1.id = pid
    · rw [hoth, if_pos hc]
      exact e2
    · rw [hoth, if_neg hc]
      exact e1
  · rw [h0]
    exact List.mem_append_right _ (List.mem_singleton.mpr rfl)
  · intro hconn
    rw [h0]
    by_cases hc : g.player1.id = pid
    · rw [hoth, if_pos hc] at hconn ⊢
      exact e5 hconn
    · rw [hoth, if_neg hc] at hconn ⊢
      exact e4 hconn
  · rw [h0]
    refine e6 pid hmem2 ?_ ?_
    · by_cases hc : g.player1.id = pid
      · rw [hdisc, if_pos hc] at hdc
        exact Or.inl hdc
      · exact Or.inr (fun h => hc h.symm)
    · by_cases hc : g.player1.id = pid
      · rw [hoth, if_pos hc] at hone
        exact Or.inr (fun h => hone h.symm)
      · rcases hprin with h | h
        · exact absurd h hc
        · rw [hdisc, if_neg hc] at hdc
          exact Or.inl hdc
  · rw [h0]
    intro q hq
    have hq' : q ∈ gm2.matchQueue := by
      rw [← e3]
      exact hq
    rw [hgm2] at hq'
    exact eraseKey_not_mem Player.id pid hqWF q hq'

/-- Witness for `removePlayer_disconnect`: removing the disconnected `pDead`
from `gmDisc` notifies `pBob`, returns `pBob` to the lobby, and leaves
neither a lobby membership nor a match-queue entry for `pDead`. -/
theorem removePlayer_disconnect_witness :
    Event.playerDisconnected pBob.id "g1" pDead.username ∈ (removePlayer gmDisc "d").2 ∧
    (removePlayer gmDisc "d").1.lobby.member pBob.id = true ∧
    (removePlayer gmDisc "d").1.lobby.member "d" = false :=
  ⟨(removePlayer_disconnect gmDisc "d" "g1" gameDisc [] [] pBob pDead
      (by decide) (by decide) (Or.inl (by decide)) (by decide) (by decide)
      (by decide) (by decide) (by decide) (by decide) (by decide)
      (by decide) (by decide)).2.2.2.1,
   (removePlayer_disconnect gmDisc "d" "g1" gameDisc [] [] pBob pDead
      (by decide) (by decide) (Or.inl (by decide)) (by decide) (by decide)
      (by decide) (by decide) (by decide) (by decide) (by decide)
      (by decide) (by decide)).2.2.2.2.1 (by decide),
   (removePlayer_disconnect gmDisc "d" "g1" gameDisc [] [] pBob pDead
      (by decide) (by decide) (Or.inl (by decide)) (by decide) (by decide)
      (by decide) (by decide) (by decide) (by decide) (by decide)
      (by decide) (by decide)).2.2.2.2.2.1⟩

end SnakeGame
